import Mathlib

/-!
Shallow embedding of the orchestr8 execution core:
dependency resolution (`package_utils.py`), import extraction,
host and in-container shells (`shell.py`), project materialization
(`execution_runtime/__init__.py`) and the sandbox image lifecycle
(`sandbox_client.py`).
External effects (the package registry, the local distribution index,
the filesystem, the docker daemon) are passed in as explicit parameters
or state, so every function here is executable.
-/

deriving instance DecidableEq for Except

namespace Orchestr8

/-- Release information returned by the registry: the published version
ids and the latest version (`ReleaseInfo` in `package_utils.py`). -/
structure ReleaseInfo where
  ids : List String
  latest : String
deriving DecidableEq, Repr

/-- Version-specifier operators (`Specifier.op` in `package_utils.py`). -/
inductive Op where
  | eq
  | ne
  | ge
  | le
  | gt
  | lt
  | compat
  | arb
deriving DecidableEq, Repr

/-- A version specifier: an operator together with a version string. -/
structure Specifier where
  version : String
  op : Op
deriving DecidableEq, Repr

/-- Dependency override entry: optional package name and version
specifiers.  An absent `package_name` and the empty string are both
falsy in the source (`dep.get("package_name") or mod_name`), and an
absent specifier list and the empty list are both falsy
(`if specifiers := dep.get("specifiers")`). -/
structure Dependency where
  package_name : Option String
  specifiers : List Specifier
deriving DecidableEq, Repr

/-- Split a character list at every occurrence of `sep`
(the behaviour of `str.split(sep)` on a single-character separator). -/
def splitCharsAux (sep : Char) : List Char → List Char → List (List Char)
  | [], acc => [acc.reverse]
  | c :: cs, acc =>
      if c = sep then acc.reverse :: splitCharsAux sep cs []
      else splitCharsAux sep cs (c :: acc)

/-- Split a string at every occurrence of the character `sep`. -/
def strSplit (sep : Char) (s : String) : List String :=
  (splitCharsAux sep s.data []).map String.mk

/-- Decimal digit value of a character, when it is a digit. -/
def decDigit (c : Char) : Option Nat :=
  if '0' ≤ c ∧ c ≤ '9' then some (c.toNat - '0'.toNat) else none

/-- Accumulate the decimal value of a digit list. -/
def digitsValAux : List Char → Nat → Option Nat
  | [], acc => some acc
  | c :: cs, acc =>
      match decDigit c with
      | none => none
      | some d => digitsValAux cs (acc * 10 + d)

/-- Parse a decimal numeral (`int(s)` on non-negative numerals). -/
def strToNat (s : String) : Option Nat :=
  match s.data with
  | [] => none
  | cs => digitsValAux cs 0

/-- ASCII whitespace, as stripped by `str.strip()`. -/
def isWsChar (c : Char) : Bool :=
  c == ' ' || c == '\t' || c == '\n' || c == '\r' || c == '\x0b' || c == '\x0c'

/-- `str.strip()`: remove leading and trailing whitespace. -/
def strTrim (s : String) : String :=
  String.mk (((s.data.dropWhile isWsChar).reverse.dropWhile isWsChar).reverse)

/-- Code-point lexicographic order on character lists. -/
def charListLe : List Char → List Char → Bool
  | [], _ => true
  | _ :: _, [] => false
  | a :: as, b :: bs => if a < b then true else if b < a then false else charListLe as bs

/-- Code-point lexicographic order on strings, as `sorted` uses it. -/
def strLeB (s t : String) : Bool :=
  charListLe s.data t.data

/-- First-occurrence deduplication, skipping anything in `seen`. -/
def dedupFirstAux (seen : List String) : List String → List String
  | [] => []
  | x :: xs =>
      if seen.contains x then dedupFirstAux seen xs
      else x :: dedupFirstAux (x :: seen) xs

/-- Deduplicate a string list keeping first occurrences (the
deterministic stand-in for Python's unordered `set(...)`). -/
def dedupFirst (l : List String) : List String :=
  dedupFirstAux [] l

/-- Resolved package name of an override: the override's package name
when it is present and non-empty, otherwise the module name itself. -/
def resolvePkgName (modName : String) (dep : Dependency) : String :=
  match dep.package_name with
  | some s => if s = "" then modName else s
  | none => modName

/-- Parse a version string into its numeric release segments
(the numeric-release fragment of the version grammar used by the
`packaging` library). -/
def parseVersion (s : String) : List Nat :=
  (strSplit '.' s).map (fun p => (strToNat p).getD 0)

/-- Are all release segments zero? -/
def allZero : List Nat → Bool
  | [] => true
  | x :: xs => x == 0 && allZero xs

/-- Compare two release-segment lists, zero-padding the shorter one. -/
def verCmp (a b : List Nat) : Ordering :=
  match a, b with
  | [], [] => Ordering.eq
  | [], ys => if allZero ys then Ordering.eq else Ordering.lt
  | xs, [] => if allZero xs then Ordering.eq else Ordering.gt
  | x :: xs, y :: ys =>
      if x < y then Ordering.lt else if y < x then Ordering.gt else verCmp xs ys

/-- Increment the last release segment (used for the upper bound of a
compatible-release specifier). -/
def bumpTail (l : List Nat) : List Nat :=
  match l with
  | [] => []
  | [x] => [x + 1]
  | x :: xs => x :: bumpTail xs

/-- Does version `v` satisfy a single specifier `(op, spec)`?
This models `packaging`'s containment test on the numeric-release
fragment of the version grammar. -/
def opSat (op : Op) (v spec : String) : Bool :=
  match op with
  | Op.eq => verCmp (parseVersion v) (parseVersion spec) == Ordering.eq
  | Op.ne => !(verCmp (parseVersion v) (parseVersion spec) == Ordering.eq)
  | Op.ge => !(verCmp (parseVersion v) (parseVersion spec) == Ordering.lt)
  | Op.le => !(verCmp (parseVersion v) (parseVersion spec) == Ordering.gt)
  | Op.gt => verCmp (parseVersion v) (parseVersion spec) == Ordering.gt
  | Op.lt => verCmp (parseVersion v) (parseVersion spec) == Ordering.lt
  | Op.compat =>
      (!(verCmp (parseVersion v) (parseVersion spec) == Ordering.lt))
        && (verCmp (parseVersion v) (bumpTail (parseVersion spec).dropLast) == Ordering.lt)
  | Op.arb => v == spec

/-- Membership of a version in a specifier set: it must satisfy every
specifier (`Version(v) in specifier_set`). -/
def specSetSat (specs : List Specifier) (v : String) : Bool :=
  specs.all (fun s => opSat s.op v s.version)

/-- Textual form of an operator. -/
def opStr : Op → String
  | Op.eq => "=="
  | Op.ne => "!="
  | Op.ge => ">="
  | Op.le => "<="
  | Op.gt => ">"
  | Op.lt => "<"
  | Op.compat => "~="
  | Op.arb => "==="

/-- Insert a string into a sorted list (ascending). -/
def insertStr (s : String) : List String → List String
  | [] => [s]
  | t :: ts => if strLeB s t then s :: t :: ts else t :: insertStr s ts

/-- Insertion sort on strings, ascending. -/
def sortStrings : List String → List String
  | [] => []
  | s :: ss => insertStr s (sortStrings ss)

/-- Join strings with a separator (`sep.join(parts)`). -/
def strJoinWith (sep : String) : List String → String
  | [] => ""
  | [s] => s
  | s :: rest => s ++ sep ++ strJoinWith sep rest

/-- Textual form of a specifier set, as `str(SpecifierSet)` produces it:
the distinct `op ++ version` atoms, sorted, joined with commas. -/
def specSetStr (specs : List Specifier) : String :=
  strJoinWith "," (sortStrings (dedupFirst (specs.map (fun s => opStr s.op ++ s.version))))

/-- Errors raised by `generate_requirements` and its helpers:
`pkgNotFound` is the registry 404 (`LookupError`), the other two are
the `ValueError` validations on override specifiers. -/
inductive GenErr where
  | pkgNotFound (pkg : String)
  | versionsNotFound (missing : List String) (pkg : String)
  | unsatisfiableSpecifiers (pkg : String)
deriving DecidableEq, Repr

/-- The registry: package name to release info; `none` models a 404. -/
def Registry : Type := String → Option ReleaseInfo

/-- The local distribution index: module name to the list of
`(package, installed version)` pairs mapped to it; `[]` models a module
with no locally installed package. -/
def LocalIndex : Type := String → List (String × String)

/-- The literal specifier versions missing from the published ids:
`spec_versions.difference(available_versions)` in the source. -/
def missingVersions (specs : List Specifier) (info : ReleaseInfo) : List String :=
  (dedupFirst (specs.map (fun s => s.version))).filter (fun v => !(info.ids.contains v))

/-- One iteration of the override loop of `generate_requirements`:
fetch release info for the resolved package name, validate the
specifiers when present, and produce the requirement string. -/
def processOverride (registry : Registry) (modName : String) (dep : Dependency) :
    Except GenErr String :=
  let pkg := resolvePkgName modName dep
  match registry pkg with
  | none => Except.error (GenErr.pkgNotFound pkg)
  | some info =>
      if dep.specifiers ≠ [] then
        let notFound := missingVersions dep.specifiers info
        if notFound ≠ [] then
          Except.error (GenErr.versionsNotFound notFound pkg)
        else if !(info.ids.any (fun v => specSetSat dep.specifiers v)) then
          Except.error (GenErr.unsatisfiableSpecifiers pkg)
        else
          Except.ok (pkg ++ specSetStr dep.specifiers)
      else
        Except.ok (pkg ++ "==" ++ info.latest)

/-- The override loop of `generate_requirements`, in dict order. -/
def processOverrides (registry : Registry) :
    List (String × Dependency) → Except GenErr (List String)
  | [] => Except.ok []
  | (m, dep) :: rest => do
      let r ← processOverride registry m dep
      let rs ← processOverrides registry rest
      Except.ok (r :: rs)

/-- The inner loop over a module's locally mapped packages: each
`(pkg, version)` is looked up in the registry and contributes
`pkg==version` exactly when the local version is among the published
ids; stale local versions are dropped. -/
def processLocal (registry : Registry) :
    List (String × String) → Except GenErr (List String)
  | [] => Except.ok []
  | (pkg, ver) :: rest =>
      match registry pkg with
      | none => Except.error (GenErr.pkgNotFound pkg)
      | some info => do
          let rs ← processLocal registry rest
          Except.ok ((if info.ids.contains ver then [pkg ++ "==" ++ ver] else []) ++ rs)

/-- One iteration of the candidate loop of `generate_requirements`:
locally mapped modules go through `processLocal`; unmapped modules use
the module name as package name and pin the registry's latest. -/
def processCandidate (registry : Registry) (localPkgs : LocalIndex) (m : String) :
    Except GenErr (List String) :=
  match localPkgs m with
  | [] =>
      match registry m with
      | none => Except.error (GenErr.pkgNotFound m)
      | some info => Except.ok [m ++ "==" ++ info.latest]
  | _ :: _ => processLocal registry (localPkgs m)

/-- The candidate loop of `generate_requirements`. -/
def processCandidates (registry : Registry) (localPkgs : LocalIndex) :
    List String → Except GenErr (List String)
  | [] => Except.ok []
  | m :: rest => do
      let r ← processCandidate registry localPkgs m
      let rs ← processCandidates registry localPkgs rest
      Except.ok (r ++ rs)

/-- The candidate set after stdlib exclusion and override removal:
`set(module_names) - stdlib`, with every override module removed.  The
Python set is unordered; we determinize to first-occurrence order. -/
def installablesOf (stdlib : List String) (module_names : List String)
    (overrides : List (String × Dependency)) : List String :=
  ((dedupFirst module_names).filter (fun m => !(stdlib.contains m))).filter
    (fun m => !(overrides.any (fun o => o.1 == m)))

/-- `generate_requirements` from `package_utils.py`: process every
override (removing its module from the candidates), then resolve each
remaining candidate; requirements are emitted in resolution order. -/
def generate_requirements (stdlib : List String) (registry : Registry)
    (localPkgs : LocalIndex) (module_names : List String)
    (overrides : List (String × Dependency)) : Except GenErr (List String) := do
  let fromOverrides ← processOverrides registry overrides
  let fromCandidates ←
    processCandidates registry localPkgs (installablesOf stdlib module_names overrides)
  Except.ok (fromOverrides ++ fromCandidates)

/-- Python statements, as far as the import extractor distinguishes
them: plain imports, from-imports (with their relative level),
conditionals, try statements, and any other statement together with the
statements nested in it (the generic visitor descends into those). -/
inductive Stmt where
  | imp (names : List String)
  | impFrom (level : Nat) (module : Option String)
  | ite (body orelse : List Stmt)
  | tryS (body : List Stmt) (handlers : List (List Stmt)) (orelse finalbody : List Stmt)
  | other (children : List Stmt)

/-- Root of a dotted module path: `alias.name.split(".")[0]`. -/
def rootName (s : String) : String :=
  (strSplit '.' s).headD ""

/-- Names contributed directly by one statement: for `import a.b.c`
the root `a` of every alias; for `from m import x` the module `m`
exactly when the import is absolute (`level == 0`) and has a module. -/
def directModules : Stmt → List String
  | Stmt.imp names => names.map rootName
  | Stmt.impFrom level mod =>
      match level, mod with
      | 0, some m => [m]
      | _, _ => []
  | _ => []

mutual

/-- Module names collected by the visitor from one statement. -/
def stmtModules : Stmt → List String
  | Stmt.imp names => names.map rootName
  | Stmt.impFrom level mod =>
      match level, mod with
      | 0, some m => [m]
      | _, _ => []
  | Stmt.ite body orelse => stmtsModules body ++ stmtsModules orelse
  | Stmt.tryS body handlers orelse finalbody =>
      stmtsModules body ++ handlersModules handlers
        ++ stmtsModules orelse ++ stmtsModules finalbody
  | Stmt.other children => stmtsModules children

/-- Module names collected from a statement list. -/
def stmtsModules : List Stmt → List String
  | [] => []
  | s :: rest => stmtModules s ++ stmtsModules rest

/-- Module names collected from the bodies of exception handlers. -/
def handlersModules : List (List Stmt) → List String
  | [] => []
  | h :: rest => stmtsModules h ++ handlersModules rest

end

/-- Filesystem view used by import extraction: script path to parsed
module; `none` models a path that is not an existing file. -/
def ScriptFs : Type := String → Option (List Stmt)

/-- Error raised when a script path does not exist
(`FileNotFoundError`). -/
inductive FsErr where
  | scriptNotFound (path : String)
deriving DecidableEq, Repr

/-- `extract_module_names` from `package_utils.py`: the input is either
a path (looked up in the filesystem, failing NotFound when absent) or
an already-parsed module; the result is the deduplicated list of
collected module names (the source returns `list(set(...))`). -/
def extract_module_names (fs : ScriptFs) (script : String ⊕ List Stmt) :
    Except FsErr (List String) :=
  match script with
  | Sum.inl path =>
      match fs path with
      | none => Except.error (FsErr.scriptNotFound path)
      | some prog => Except.ok (dedupFirst (stmtsModules prog))
  | Sum.inr prog => Except.ok (dedupFirst (stmtsModules prog))

/-- Direct nesting of one statement inside another, as the visitor
descends: both arms of a conditional, and a try statement's body,
handler bodies, else and finally parts, and the children of any other
compound statement. -/
inductive ChildOf : Stmt → Stmt → Prop where
  | iteBody {body orelse s} : s ∈ body → ChildOf s (Stmt.ite body orelse)
  | iteElse {body orelse s} : s ∈ orelse → ChildOf s (Stmt.ite body orelse)
  | tryBody {body handlers orelse finalbody s} :
      s ∈ body → ChildOf s (Stmt.tryS body handlers orelse finalbody)
  | tryHandler {body handlers orelse finalbody h s} :
      h ∈ handlers → s ∈ h → ChildOf s (Stmt.tryS body handlers orelse finalbody)
  | tryElse {body handlers orelse finalbody s} :
      s ∈ orelse → ChildOf s (Stmt.tryS body handlers orelse finalbody)
  | tryFinal {body handlers orelse finalbody s} :
      s ∈ finalbody → ChildOf s (Stmt.tryS body handlers orelse finalbody)
  | otherChild {children s} : s ∈ children → ChildOf s (Stmt.other children)

/-- A statement is reachable in a program when it is nested (zero or
more levels deep) inside one of the program's top-level statements. -/
def ReachableIn (s : Stmt) (prog : List Stmt) : Prop :=
  ∃ t ∈ prog, Relation.ReflTransGen ChildOf s t

/-- Outcome of a spawned host subprocess: captured stdout, captured
stderr, and the exit status (`subprocess.CompletedProcess`). -/
structure ProcResult where
  stdout : String
  stderr : String
  returncode : Int
deriving DecidableEq, Repr

/-- Shell errors: a strict-mode command failure carrying the command
and the error text, or a container that is not running. -/
inductive ShellErr where
  | execFailed (cmd : List String) (error : String)
  | containerNotRunning
deriving DecidableEq, Repr

/-- Host shell configuration (`Shell` in `shell.py`); the working
directory does not affect the result policy and is omitted. -/
structure Shell where
  raiseOnNonZero : Bool
deriving DecidableEq, Repr

/-- `Shell.run` result policy from `shell.py`: the stripped stderr, when
non-empty, is either raised (strict mode and non-zero exit) or returned;
otherwise the stripped stdout is returned, `none` when it is empty. -/
def Shell.run (sh : Shell) (cmd : List String) (p : ProcResult) :
    Except ShellErr (Option String) :=
  let error := strTrim p.stderr
  if error ≠ "" then
    if p.returncode ≠ 0 ∧ sh.raiseOnNonZero = true then
      Except.error (ShellErr.execFailed cmd error)
    else
      Except.ok (some error)
  else
    let out := strTrim p.stdout
    Except.ok (if out = "" then none else some out)

/-- Container status as reported by the docker runtime. -/
inductive ContainerStatus where
  | running
  | stopped
  | created
deriving DecidableEq, Repr

/-- A container handle: its status and the behaviour of `exec_run`,
mapping a command to an exit code and decoded output. -/
structure Container where
  status : ContainerStatus
  execRun : List String → Int × String

/-- `_stop_container`: stop the container when it is running, a no-op
otherwise. -/
def Container.stopContainer (c : Container) : Container :=
  if c.status = ContainerStatus.running then
    { c with status := ContainerStatus.stopped }
  else c

/-- In-container shell (`IsolatedShell` in `shell.py`). -/
structure IsolatedShell where
  container : Container
  raiseOnNonZero : Bool

/-- `IsolatedShell.__init__`: reload the container and fail with an
Execution error unless its status is `running`. -/
def IsolatedShell.init (c : Container) (strict : Bool) :
    Except ShellErr IsolatedShell :=
  if c.status ≠ ContainerStatus.running then
    Except.error ShellErr.containerNotRunning
  else
    Except.ok { container := c, raiseOnNonZero := strict }

/-- `IsolatedShell.__exec`: run the command in the container; on a
non-zero exit code under strict mode, stop the container and then raise
the Execution error.  The resulting container state is returned next to
the outcome. -/
def IsolatedShell.exec (sh : IsolatedShell) (cmd : List String) :
    Except ShellErr String × Container :=
  let r := sh.container.execRun cmd
  if r.1 ≠ 0 ∧ sh.raiseOnNonZero = true then
    (Except.error (ShellErr.execFailed cmd r.2), Container.stopContainer sh.container)
  else
    (Except.ok r.2, sh.container)

/-- `IsolatedShell.run`: decoded output, with the empty string mapped
to `None`. -/
def IsolatedShell.runCmd (sh : IsolatedShell) (cmd : List String) :
    Except ShellErr (Option String) × Container :=
  match sh.exec cmd with
  | (Except.error e, c) => (Except.error e, c)
  | (Except.ok s, c) => (Except.ok (if s = "" then none else some s), c)

/-- A materialized project directory: whether the `hello.py`
placeholder is present, the entry-point script content, the manifest
recorded by the project-management tool, and the exported flattened
requirements file. -/
structure ProjectDir where
  hasPlaceholder : Bool
  mainPy : Option (List Stmt)
  manifest : Option (List String)
  requirementsTxt : Option (List String)
  extraFiles : List String

/-- Modelled from the spec: the external project-management tool's
`init` step, which is not part of this repository, "initializes an
empty project skeleton" containing only its placeholder file. -/
def uvInitSkeleton : ProjectDir :=
  { hasPlaceholder := true
    mainPy := none
    manifest := none
    requirementsTxt := none
    extraFiles := [] }

/-- Runtime filesystem: script paths and the projects root. -/
structure RuntimeFs where
  scripts : ScriptFs
  projects : String → Option ProjectDir

/-- `project_exists`: directory presence only. -/
def project_exists (fs : RuntimeFs) (id : String) : Bool :=
  (fs.projects id).isSome

/-- The `requirements` argument of `create_project`: absent, an
explicit list, or `True` (derive automatically). -/
inductive ReqArg where
  | noReqs
  | explicitReqs (reqs : List String)
  | autoReqs

/-- Errors raised by `create_project`. -/
inductive CreateErr where
  | alreadyExists (id : String)
  | scriptNotFound (path : String)
  | genFailure (e : GenErr)
deriving DecidableEq, Repr

/-- `Path(script).stem`: the final path component without its last
extension. -/
def pathStem (p : String) : String :=
  let base := (strSplit '/' p).getLastD ""
  match strSplit '.' base with
  | [] => ""
  | [x] => x
  | xs => strJoinWith "." xs.dropLast

/-- `create_project` from `execution_runtime/__init__.py`: fail
AlreadyExists when the project directory exists and `force` is false;
otherwise delete any prior directory, validate the script (resolving
requirements when requested), then materialize the fresh project:
init an empty skeleton, drop the placeholder, write the script as
`main.py`, and, when requirements were resolved to a non-empty list,
record the manifest and export `requirements.txt`. -/
def create_project (stdlib : List String) (registry : Registry)
    (localPkgs : LocalIndex) (fs : RuntimeFs) (script : String)
    (idArg : Option String) (reqArg : ReqArg)
    (overrides : List (String × Dependency)) (force : Bool) :
    Except CreateErr Unit × RuntimeFs :=
  let projectId := idArg.getD (pathStem script)
  if project_exists fs projectId ∧ force = false then
    (Except.error (CreateErr.alreadyExists projectId), fs)
  else
    let fs1 : RuntimeFs :=
      if project_exists fs projectId then
        { fs with projects := fun j => if j = projectId then none else fs.projects j }
      else fs
    match fs1.scripts script with
    | none => (Except.error (CreateErr.scriptNotFound script), fs1)
    | some content =>
        let reqsE : Except GenErr (Option (List String)) :=
          match reqArg with
          | ReqArg.noReqs => Except.ok none
          | ReqArg.explicitReqs rs => Except.ok (some rs)
          | ReqArg.autoReqs =>
              Except.map some
                (generate_requirements stdlib registry localPkgs
                  (dedupFirst (stmtsModules content)) overrides)
        match reqsE with
        | Except.error e => (Except.error (CreateErr.genFailure e), fs1)
        | Except.ok reqs =>
            let afterUnlink := { uvInitSkeleton with hasPlaceholder := false }
            let afterMain := { afterUnlink with mainPy := some content }
            let rs := reqs.getD []
            let finalDir :=
              if rs ≠ [] then
                { afterMain with manifest := some rs, requirementsTxt := some rs }
              else afterMain
            (Except.ok (),
              { fs1 with
                projects := fun j => if j = projectId then some finalDir else fs1.projects j })

/-- The project directory produced by a successful materialization:
a function of the script content and the resolved requirements only. -/
def freshProject (content : List Stmt) (reqs : Option (List String)) : ProjectDir :=
  { hasPlaceholder := false
    mainPy := some content
    manifest := if reqs.getD [] ≠ [] then some (reqs.getD []) else none
    requirementsTxt := if reqs.getD [] ≠ [] then some (reqs.getD []) else none
    extraFiles := [] }

/-- Docker daemon state: the local image store and the registry. -/
structure DockerState where
  localImages : List String
  registryImages : List String
deriving DecidableEq, Repr

/-- Where `image_exists` looks for the image. -/
inductive ImageSource where
  | localStore
  | registry
deriving DecidableEq, Repr

/-- Underlying operations `build_image` can perform. -/
inductive BuildOp where
  | pull (image : String)
  | build (image : String)
deriving DecidableEq, Repr

/-- Error raised by `build_image` when no build definition is given and
the image is not in the registry. -/
inductive SandboxErr where
  | imageNotFoundInRegistry (image : String)
deriving DecidableEq, Repr

/-- `SandboxClient.image_exists`: check the local store or the remote
registry; a not-found condition is `false`. -/
def image_exists (s : DockerState) (image : String) (src : ImageSource) : Bool :=
  match src with
  | ImageSource.localStore => s.localImages.contains image
  | ImageSource.registry => s.registryImages.contains image

/-- `SandboxClient.build_image`: return immediately (logging a skip)
when the image is already local; without a dockerfile, pull from the
registry (failing when it is absent there); with a dockerfile, build
and tag.  A successful pull or build puts the image in the local store
(the external daemon's effect); the performed underlying operations
are returned alongside the new state. -/
def build_image (s : DockerState) (image : String) (dockerfile : Option String) :
    Except SandboxErr (DockerState × List BuildOp) :=
  if image_exists s image ImageSource.localStore then
    Except.ok (s, [])
  else
    match dockerfile with
    | none =>
        if !(image_exists s image ImageSource.registry) then
          Except.error (SandboxErr.imageNotFoundInRegistry image)
        else
          Except.ok ({ s with localImages := image :: s.localImages }, [BuildOp.pull image])
    | some _ =>
        Except.ok ({ s with localImages := image :: s.localImages }, [BuildOp.build image])

/-! Helper lemmas. -/

theorem mem_dedupFirstAux {x : String} :
    ∀ {l seen : List String}, x ∈ dedupFirstAux seen l ↔ x ∈ l ∧ ¬ x ∈ seen := by
  intro l
  induction l with
  | nil => intro seen; simp [dedupFirstAux]
  | cons a as ih =>
      intro seen
      by_cases h : a ∈ seen
      · have hc : seen.contains a = true := by simpa using h
        simp only [dedupFirstAux, hc, if_pos, ih, List.mem_cons]
        constructor
        · rintro ⟨hx, hns⟩
          exact ⟨Or.inr hx, hns⟩
        · rintro ⟨hor, hns⟩
          rcases hor with rfl | hx
          · exact absurd h hns
          · exact ⟨hx, hns⟩
      · have hc : seen.contains a = false := by simpa using h
        simp only [dedupFirstAux, hc, Bool.false_eq_true, if_false, List.mem_cons]
        constructor
        · rintro (rfl | hmem)
          · exact ⟨Or.inl rfl, h⟩
          · obtain ⟨hx, hns⟩ := ih.mp hmem
            refine ⟨Or.inr hx, fun hxs => hns ?_⟩
            exact List.mem_cons_of_mem a hxs
        · rintro ⟨rfl | hx, hns⟩
          · exact Or.inl rfl
          · by_cases hxa : x = a
            · exact Or.inl hxa
            · refine Or.inr (ih.mpr ⟨hx, fun hmem => ?_⟩)
              rcases List.mem_cons.mp hmem with h1 | h2
              · exact hxa h1
              · exact hns h2

theorem mem_dedupFirst {x : String} {l : List String} :
    x ∈ dedupFirst l ↔ x ∈ l := by
  simpa [dedupFirst] using (@mem_dedupFirstAux x l [])

theorem nodup_dedupFirstAux : ∀ (l seen : List String), (dedupFirstAux seen l).Nodup := by
  intro l
  induction l with
  | nil => intro seen; simp [dedupFirstAux]
  | cons a as ih =>
      intro seen
      by_cases h : a ∈ seen
      · have hc : seen.contains a = true := by simpa using h
        simpa [dedupFirstAux, hc, h] using ih seen
      · have hc : seen.contains a = false := by simpa using h
        simp only [dedupFirstAux, hc, Bool.false_eq_true, if_false, List.nodup_cons]
        refine ⟨fun hmem => ?_, ih (a :: seen)⟩
        have := (mem_dedupFirstAux.mp hmem).2
        exact this (List.mem_cons_self a seen)

theorem nodup_dedupFirst (l : List String) : (dedupFirst l).Nodup :=
  nodup_dedupFirstAux l []

theorem exceptBind_ok {ε : Type u} {α β : Type v} (a : α) (f : α → Except ε β) :
    (Except.ok a >>= f) = f a := rfl

theorem exceptBind_error {ε : Type u} {α β : Type v} (e : ε) (f : α → Except ε β) :
    ((Except.error e : Except ε α) >>= f) = Except.error e := rfl

theorem installablesOf_eq_nil {stdlib mods : List String}
    {ovs : List (String × Dependency)} (h : ∀ m ∈ mods, m ∈ stdlib) :
    installablesOf stdlib mods ovs = [] := by
  unfold installablesOf
  have h1 : (dedupFirst mods).filter (fun m => !(stdlib.contains m)) = [] := by
    rw [List.filter_eq_nil_iff]
    intro a ha
    have ham : a ∈ mods := mem_dedupFirst.mp ha
    simp [h a ham]
  rw [h1]
  rfl

/-- C5: when every module of the input list belongs to the stdlib
reference set and no overrides are given, `generate_requirements`
returns the empty list — for every registry and local index, so no
registry lookup can influence the result. -/
theorem generate_requirements_stdlib_only
    (stdlib : List String) (registry : Registry) (localPkgs : LocalIndex)
    (mods : List String) (h : ∀ m ∈ mods, m ∈ stdlib) :
    generate_requirements stdlib registry localPkgs mods [] = Except.ok [] := by
  unfold generate_requirements
  rw [installablesOf_eq_nil h]
  rfl

/-- C5 witness: a concrete stdlib-only call. -/
theorem generate_requirements_stdlib_only_witness :
    generate_requirements ["os", "sys"] (fun _ => none) (fun _ => [])
      ["os", "sys", "os"] [] = Except.ok [] :=
  generate_requirements_stdlib_only ["os", "sys"] (fun _ => none) (fun _ => [])
    ["os", "sys", "os"] (by decide)

theorem gen_single_override_error (stdlib : List String) (registry : Registry)
    (localPkgs : LocalIndex) (mods : List String) (m : String) (dep : Dependency)
    (e : GenErr) (h : processOverride registry m dep = Except.error e) :
    generate_requirements stdlib registry localPkgs mods [(m, dep)] = Except.error e := by
  unfold generate_requirements processOverrides
  simp only [h]
  rfl

theorem gen_single_override_ok (stdlib : List String) (registry : Registry)
    (localPkgs : LocalIndex) (mods : List String) (m : String) (dep : Dependency)
    (r : String) (h : processOverride registry m dep = Except.ok r)
    (hstd : ∀ x ∈ mods, x ∈ stdlib) :
    generate_requirements stdlib registry localPkgs mods [(m, dep)] = Except.ok [r] := by
  unfold generate_requirements
  rw [installablesOf_eq_nil hstd]
  simp only [processOverrides, h, processCandidates]
  rfl

theorem processOverride_missing (registry : Registry) (m : String) (dep : Dependency)
    (info : ReleaseInfo) (hreg : registry (resolvePkgName m dep) = some info)
    (hspec : dep.specifiers ≠ []) (hmiss : missingVersions dep.specifiers info ≠ []) :
    processOverride registry m dep
      = Except.error (GenErr.versionsNotFound (missingVersions dep.specifiers info)
          (resolvePkgName m dep)) := by
  unfold processOverride
  simp [hreg, hspec, hmiss]

theorem processOverride_unsat (registry : Registry) (m : String) (dep : Dependency)
    (info : ReleaseInfo) (hreg : registry (resolvePkgName m dep) = some info)
    (hspec : dep.specifiers ≠ []) (hmiss : missingVersions dep.specifiers info = [])
    (hsat : info.ids.any (fun v => specSetSat dep.specifiers v) = false) :
    processOverride registry m dep
      = Except.error (GenErr.unsatisfiableSpecifiers (resolvePkgName m dep)) := by
  unfold processOverride
  simp [hreg, hspec, hmiss, hsat]

theorem processOverride_sat (registry : Registry) (m : String) (dep : Dependency)
    (info : ReleaseInfo) (hreg : registry (resolvePkgName m dep) = some info)
    (hspec : dep.specifiers ≠ []) (hmiss : missingVersions dep.specifiers info = [])
    (hsat : info.ids.any (fun v => specSetSat dep.specifiers v) = true) :
    processOverride registry m dep
      = Except.ok (resolvePkgName m dep ++ specSetStr dep.specifiers) := by
  unfold processOverride
  simp [hreg, hspec, hmiss, hsat]

theorem processOverride_latest (registry : Registry) (m : String) (dep : Dependency)
    (info : ReleaseInfo) (hreg : registry (resolvePkgName m dep) = some info)
    (hspec : dep.specifiers = []) :
    processOverride registry m dep
      = Except.ok (resolvePkgName m dep ++ "==" ++ info.latest) := by
  unfold processOverride
  simp [hreg, hspec]

/-- C1: behaviour of `generate_requirements` on a dependency override.
With specifiers: a literal specifier version absent from the published
ids fails Validation naming the missing versions; an unsatisfiable
combined specifier set fails Validation; otherwise the requirement
`package ++ specifier-expression` is emitted.  Without specifiers the
requirement `package==latest` is emitted.  (The emission clauses pin
the whole result by keeping the candidate set empty.) -/
theorem generate_requirements_override_clauses
    (stdlib : List String) (registry : Registry) (localPkgs : LocalIndex)
    (mods : List String) (m : String) (dep : Dependency) (info : ReleaseInfo)
    (hreg : registry (resolvePkgName m dep) = some info) :
    (dep.specifiers ≠ [] →
      (missingVersions dep.specifiers info ≠ [] →
        generate_requirements stdlib registry localPkgs mods [(m, dep)]
          = Except.error (GenErr.versionsNotFound (missingVersions dep.specifiers info)
              (resolvePkgName m dep))) ∧
      (missingVersions dep.specifiers info = [] →
        info.ids.any (fun v => specSetSat dep.specifiers v) = false →
        generate_requirements stdlib registry localPkgs mods [(m, dep)]
          = Except.error (GenErr.unsatisfiableSpecifiers (resolvePkgName m dep))) ∧
      (missingVersions dep.specifiers info = [] →
        info.ids.any (fun v => specSetSat dep.specifiers v) = true →
        (∀ x ∈ mods, x ∈ stdlib) →
        generate_requirements stdlib registry localPkgs mods [(m, dep)]
          = Except.ok [resolvePkgName m dep ++ specSetStr dep.specifiers])) ∧
    (dep.specifiers = [] →
      (∀ x ∈ mods, x ∈ stdlib) →
      generate_requirements stdlib registry localPkgs mods [(m, dep)]
        = Except.ok [resolvePkgName m dep ++ "==" ++ info.latest]) := by
  constructor
  · intro hspec
    refine ⟨fun hmiss => ?_, fun hmiss hsat => ?_, fun hmiss hsat hstd => ?_⟩
    · exact gen_single_override_error _ _ _ _ _ _ _
        (processOverride_missing registry m dep info hreg hspec hmiss)
    · exact gen_single_override_error _ _ _ _ _ _ _
        (processOverride_unsat registry m dep info hreg hspec hmiss hsat)
    · exact gen_single_override_ok _ _ _ _ _ _ _
        (processOverride_sat registry m dep info hreg hspec hmiss hsat) hstd
  · intro hspec hstd
    exact gen_single_override_ok _ _ _ _ _ _ _
      (processOverride_latest registry m dep info hreg hspec) hstd

/-- C1 witness: a PyYAML-style override, exercising the
missing-version failure and the pinned-latest emission. -/
theorem generate_requirements_override_clauses_witness :
    generate_requirements ["os"] (fun p => if p = "PyYAML" then some ⟨["5.0", "6.0"], "6.0"⟩ else none)
      (fun _ => []) ["os"] [("yaml", ⟨some "PyYAML", [⟨"7.0", Op.eq⟩]⟩)]
      = Except.error (GenErr.versionsNotFound ["7.0"] "PyYAML") ∧
    generate_requirements ["os"] (fun p => if p = "PyYAML" then some ⟨["5.0", "6.0"], "6.0"⟩ else none)
      (fun _ => []) ["os"] [("yaml", ⟨some "PyYAML", []⟩)]
      = Except.ok ["PyYAML==6.0"] := by
  constructor
  · exact ((generate_requirements_override_clauses ["os"] _ (fun _ => []) ["os"] "yaml"
      ⟨some "PyYAML", [⟨"7.0", Op.eq⟩]⟩ ⟨["5.0", "6.0"], "6.0"⟩ (by decide)).1
      (by decide)).1 (by decide)
  · exact (generate_requirements_override_clauses ["os"] _ (fun _ => []) ["os"] "yaml"
      ⟨some "PyYAML", []⟩ ⟨["5.0", "6.0"], "6.0"⟩ (by decide)).2 rfl (by decide)

/-- C9: an override whose module does not occur in `module_names` is
still processed: its registry lookup happens and either a requirement
for it is emitted or the lookup failure is raised. -/
theorem generate_requirements_override_outside_modules
    (stdlib : List String) (registry : Registry) (localPkgs : LocalIndex)
    (mods : List String) (m : String) (dep : Dependency)
    (_hnotin : ¬ m ∈ mods) (hstd : ∀ x ∈ mods, x ∈ stdlib) :
    (∀ info, registry (resolvePkgName m dep) = some info → dep.specifiers = [] →
      generate_requirements stdlib registry localPkgs mods [(m, dep)]
        = Except.ok [resolvePkgName m dep ++ "==" ++ info.latest]) ∧
    (registry (resolvePkgName m dep) = none →
      generate_requirements stdlib registry localPkgs mods [(m, dep)]
        = Except.error (GenErr.pkgNotFound (resolvePkgName m dep))) := by
  constructor
  · intro info hreg hspec
    exact gen_single_override_ok _ _ _ _ _ _ _
      (processOverride_latest registry m dep info hreg hspec) hstd
  · intro hreg
    refine gen_single_override_error _ _ _ _ _ _ _ ?_
    unfold processOverride
    simp [hreg]

/-- C9 witness: module `yaml` absent from the input list, its override
emitting a requirement anyway; and a failing lookup raising. -/
theorem generate_requirements_override_outside_modules_witness :
    generate_requirements ["os"] (fun p => if p = "PyYAML" then some ⟨["5.0", "6.0"], "6.0"⟩ else none)
      (fun _ => []) ["os"] [("yaml", ⟨some "PyYAML", []⟩)]
      = Except.ok ["PyYAML==6.0"] ∧
    generate_requirements ["os"] (fun _ => none)
      (fun _ => []) ["os"] [("ghost", ⟨none, []⟩)]
      = Except.error (GenErr.pkgNotFound "ghost") := by
  constructor
  · exact (generate_requirements_override_outside_modules ["os"] _ (fun _ => []) ["os"] "yaml"
      ⟨some "PyYAML", []⟩ (by decide) (by decide)).1 ⟨["5.0", "6.0"], "6.0"⟩ (by decide) rfl
  · exact (generate_requirements_override_outside_modules ["os"] (fun _ => none) (fun _ => [])
      ["os"] "ghost" ⟨none, []⟩ (by decide) (by decide)).2 rfl

theorem installablesOf_singleton (stdlib : List String) (m : String)
    (h : ¬ m ∈ stdlib) : installablesOf stdlib [m] [] = [m] := by
  have h1 : dedupFirst [m] = [m] := rfl
  unfold installablesOf
  rw [h1]
  simp [List.filter_cons, h]

theorem processLocal_all_found (registry : Registry) :
    ∀ (pvs : List (String × String)),
    (∀ pv ∈ pvs, (registry pv.1).isSome = true) →
    processLocal registry pvs = Except.ok
      ((pvs.filter (fun pv => ((registry pv.1).getD ⟨[], ""⟩).ids.contains pv.2)).map
        (fun pv => pv.1 ++ "==" ++ pv.2)) := by
  intro pvs
  induction pvs with
  | nil => intro _; rfl
  | cons pv rest ih =>
      intro h
      obtain ⟨info, hinfo⟩ := Option.isSome_iff_exists.mp (h pv (List.mem_cons_self _ _))
      obtain ⟨pkg, ver⟩ := pv
      rw [processLocal]
      rw [hinfo, ih (fun q hq => h q (List.mem_cons_of_mem _ hq))]
      by_cases hc : ver ∈ info.ids <;>
        simp [List.filter_cons, hinfo, hc, exceptBind_ok]

/-- C7: behaviour of the candidate loop on a single non-stdlib module
with no overrides.  Locally mapped modules emit `package==version` for
exactly the mappings whose local version is still published (stale ones
silently dropped, provided every mapped package resolves in the
registry); unmapped modules are looked up under their own name and
pinned to the registry's latest version. -/
theorem generate_requirements_candidate_clauses
    (stdlib : List String) (registry : Registry) (localPkgs : LocalIndex) (m : String)
    (hstd : ¬ m ∈ stdlib) :
    (localPkgs m ≠ [] → (∀ pv ∈ localPkgs m, (registry pv.1).isSome = true) →
      generate_requirements stdlib registry localPkgs [m] []
        = Except.ok
            (((localPkgs m).filter
                (fun pv => ((registry pv.1).getD ⟨[], ""⟩).ids.contains pv.2)).map
              (fun pv => pv.1 ++ "==" ++ pv.2))) ∧
    (localPkgs m = [] → ∀ info, registry m = some info →
      generate_requirements stdlib registry localPkgs [m] []
        = Except.ok [m ++ "==" ++ info.latest]) := by
  have hgen : ∀ r, processCandidate registry localPkgs m = Except.ok r →
      generate_requirements stdlib registry localPkgs [m] [] = Except.ok r := by
    intro r hr
    unfold generate_requirements
    rw [installablesOf_singleton stdlib m hstd]
    simp only [processOverrides, processCandidates, hr]
    show Except.ok (([] : List String) ++ (r ++ [])) = Except.ok r
    simp
  constructor
  · intro hne hlookup
    refine hgen _ ?_
    unfold processCandidate
    cases hl : localPkgs m with
    | nil => exact absurd hl hne
    | cons p ps =>
        exact processLocal_all_found registry (p :: ps) (hl ▸ hlookup)
  · intro hl info hreg
    refine hgen _ ?_
    unfold processCandidate
    rw [hl, hreg]

/-- C7 witness: one module with two local mappings, one stale version
dropped; and one unmapped module pinned to latest. -/
theorem generate_requirements_candidate_clauses_witness :
    generate_requirements ["os"]
      (fun p => if p = "pkgA" then some ⟨["1.0"], "1.0"⟩ else
                if p = "pkgB" then some ⟨["2.0"], "2.0"⟩ else none)
      (fun mo => if mo = "mod" then [("pkgA", "1.0"), ("pkgB", "9.9")] else [])
      ["mod"] [] = Except.ok ["pkgA==1.0"] ∧
    generate_requirements ["os"] (fun p => if p = "solo" then some ⟨["3.0"], "3.0"⟩ else none)
      (fun _ => []) ["solo"] [] = Except.ok ["solo==3.0"] := by
  constructor
  · exact ((generate_requirements_candidate_clauses ["os"]
      (fun p => if p = "pkgA" then some ⟨["1.0"], "1.0"⟩ else
                if p = "pkgB" then some ⟨["2.0"], "2.0"⟩ else none)
      (fun mo => if mo = "mod" then [("pkgA", "1.0"), ("pkgB", "9.9")] else [])
      "mod" (by decide)).1 (by decide) (by decide)).trans (by decide)
  · exact (generate_requirements_candidate_clauses ["os"]
      (fun p => if p = "solo" then some ⟨["3.0"], "3.0"⟩ else none)
      (fun _ => []) "solo" (by decide)).2 rfl ⟨["3.0"], "3.0"⟩ (by decide)

/-- C3 counterexample: with whitespace-only stderr (which is non-empty),
a non-zero exit status and strict mode, `Shell.run` does not raise: the
stripped stderr is empty, so the trimmed-stdout branch returns `none`. -/
theorem shell_run_counterexample :
    (" " : String) ≠ "" ∧ (1 : Int) ≠ 0 ∧
    Shell.run ⟨true⟩ ["cmd"] ⟨"", " ", 1⟩ = Except.ok none :=
  ⟨by decide, by decide, by decide⟩

/-- C3 (amended): `Shell.run` tests the stderr stripped of whitespace.
If the stripped stderr is non-empty: with non-zero exit and strict mode
it raises an Execution error carrying the command and the stripped
stderr; otherwise the stripped stderr is returned.  If the stripped
stderr is empty, the stripped stdout is returned, `none` when empty. -/
theorem shell_run_policy (sh : Shell) (cmd : List String) (p : ProcResult) :
    (strTrim p.stderr ≠ "" → p.returncode ≠ 0 → sh.raiseOnNonZero = true →
      Shell.run sh cmd p = Except.error (ShellErr.execFailed cmd (strTrim p.stderr))) ∧
    (strTrim p.stderr ≠ "" → (sh.raiseOnNonZero = false ∨ p.returncode = 0) →
      Shell.run sh cmd p = Except.ok (some (strTrim p.stderr))) ∧
    (strTrim p.stderr = "" → strTrim p.stdout ≠ "" →
      Shell.run sh cmd p = Except.ok (some (strTrim p.stdout))) ∧
    (strTrim p.stderr = "" → strTrim p.stdout = "" →
      Shell.run sh cmd p = Except.ok none) := by
  refine ⟨fun h1 h2 h3 => ?_, fun h1 h2 => ?_, fun h1 h2 => ?_, fun h1 h2 => ?_⟩
  · simp [Shell.run, h1, h2, h3]
  · have hcond : ¬ (p.returncode ≠ 0 ∧ sh.raiseOnNonZero = true) := by
      rcases h2 with h | h
      · rintro ⟨_, hs⟩
        rw [h] at hs
        exact Bool.false_ne_true hs
      · rintro ⟨hr, _⟩
        exact hr h
    simp [Shell.run, h1, hcond]
  · simp [Shell.run, h1, h2]
  · simp [Shell.run, h1, h2]

/-- C3 witness for the amended policy: all four branches at concrete
process outcomes. -/
theorem shell_run_policy_witness :
    Shell.run ⟨true⟩ ["c"] ⟨"", "err\n", 2⟩
      = Except.error (ShellErr.execFailed ["c"] "err") ∧
    Shell.run ⟨false⟩ ["c"] ⟨"", "err\n", 2⟩ = Except.ok (some "err") ∧
    Shell.run ⟨true⟩ ["c"] ⟨" hi ", "", 0⟩ = Except.ok (some "hi") ∧
    Shell.run ⟨true⟩ ["c"] ⟨"  ", "", 0⟩ = Except.ok none := by
  refine ⟨?_, ?_, ?_, ?_⟩
  · exact (shell_run_policy ⟨true⟩ ["c"] ⟨"", "err\n", 2⟩).1 (by decide) (by decide) rfl
  · exact (shell_run_policy ⟨false⟩ ["c"] ⟨"", "err\n", 2⟩).2.1 (by decide) (Or.inl rfl)
  · exact (shell_run_policy ⟨true⟩ ["c"] ⟨" hi ", "", 0⟩).2.2.1 (by decide) (by decide)
  · exact (shell_run_policy ⟨true⟩ ["c"] ⟨"  ", "", 0⟩).2.2.2 (by decide) (by decide)

/-- C8: `IsolatedShell` construction fails with an Execution error when
the container is not running; and under strict mode a non-zero exit
code yields the Execution error with the command and output, the
container having been stopped. -/
theorem isolatedShell_running_and_failfast (c : Container) (strict : Bool)
    (sh : IsolatedShell) (cmd : List String) :
    (c.status ≠ ContainerStatus.running →
      IsolatedShell.init c strict = Except.error ShellErr.containerNotRunning) ∧
    (sh.raiseOnNonZero = true → (sh.container.execRun cmd).1 ≠ 0 →
      (sh.exec cmd).1 = Except.error (ShellErr.execFailed cmd (sh.container.execRun cmd).2)) ∧
    (sh.raiseOnNonZero = true → (sh.container.execRun cmd).1 ≠ 0 →
      sh.container.status = ContainerStatus.running →
      (sh.exec cmd).2.status = ContainerStatus.stopped) := by
  refine ⟨fun h => ?_, fun h1 h2 => ?_, fun h1 h2 h3 => ?_⟩
  · unfold IsolatedShell.init
    rw [if_pos h]
  · simp [IsolatedShell.exec, h1, h2]
  · simp [IsolatedShell.exec, Container.stopContainer, h1, h2, h3]

/-- C8 witness: a stopped container is rejected at construction; a
strict-mode failing command errors and leaves the container stopped. -/
theorem isolatedShell_running_and_failfast_witness :
    IsolatedShell.init ⟨ContainerStatus.stopped, fun _ => (0, "")⟩ true
      = Except.error ShellErr.containerNotRunning ∧
    (IsolatedShell.exec ⟨⟨ContainerStatus.running, fun _ => (1, "boom")⟩, true⟩ ["x"]).1
      = Except.error (ShellErr.execFailed ["x"] "boom") ∧
    (IsolatedShell.exec ⟨⟨ContainerStatus.running, fun _ => (1, "boom")⟩, true⟩ ["x"]).2.status
      = ContainerStatus.stopped := by
  refine ⟨?_, ?_, ?_⟩
  · exact (isolatedShell_running_and_failfast ⟨ContainerStatus.stopped, fun _ => (0, "")⟩ true
      ⟨⟨ContainerStatus.running, fun _ => (1, "boom")⟩, true⟩ ["x"]).1 (by decide)
  · exact (isolatedShell_running_and_failfast ⟨ContainerStatus.stopped, fun _ => (0, "")⟩ true
      ⟨⟨ContainerStatus.running, fun _ => (1, "boom")⟩, true⟩ ["x"]).2.1 rfl (by decide)
  · exact (isolatedShell_running_and_failfast ⟨ContainerStatus.stopped, fun _ => (0, "")⟩ true
      ⟨⟨ContainerStatus.running, fun _ => (1, "boom")⟩, true⟩ ["x"]).2.2 rfl (by decide) rfl

/-- C6: `build_image` is idempotent.  Locally present images cause an
immediate return with no underlying operation and unchanged state; a
successful call from an absent image performs exactly one pull or build
and a repeat call performs none; without a build definition the image
is pulled from the registry when present there and the call fails when
it is not. -/
theorem build_image_idempotent (s : DockerState) (image : String)
    (df df2 : Option String) :
    (image_exists s image ImageSource.localStore = true →
      build_image s image df = Except.ok (s, [])) ∧
    (image_exists s image ImageSource.localStore = false →
      ∀ s' ops, build_image s image df = Except.ok (s', ops) →
        ops.length = 1 ∧ build_image s' image df2 = Except.ok (s', [])) ∧
    (image_exists s image ImageSource.localStore = false → df = none →
      image_exists s image ImageSource.registry = false →
      build_image s image df = Except.error (SandboxErr.imageNotFoundInRegistry image)) ∧
    (image_exists s image ImageSource.localStore = false → df = none →
      image_exists s image ImageSource.registry = true →
      build_image s image df
        = Except.ok ({ s with localImages := image :: s.localImages }, [BuildOp.pull image])) := by
  refine ⟨fun h => ?_, fun h s' ops hok => ?_, fun h hdf hreg => ?_, fun h hdf hreg => ?_⟩
  · simp [build_image, h]
  · cases df with
    | none =>
        by_cases hreg : image_exists s image ImageSource.registry = true
        · rw [build_image] at hok
          simp [h, hreg] at hok
          obtain ⟨hs', hops⟩ := hok
          subst hs'
          subst hops
          refine ⟨rfl, ?_⟩
          simp [build_image, image_exists]
        · rw [build_image] at hok
          simp [h, Bool.eq_false_iff.mpr hreg] at hok
    | some d =>
        rw [build_image] at hok
        simp [h] at hok
        obtain ⟨hs', hops⟩ := hok
        subst hs'
        subst hops
        refine ⟨rfl, ?_⟩
        simp [build_image, image_exists]
  · subst hdf
    simp [build_image, h, hreg]
  · subst hdf
    simp [build_image, h, hreg]

/-- C6 witness: pulling a registry image once and skipping the second
call; failing when the image is nowhere. -/
theorem build_image_idempotent_witness :
    build_image ⟨[], ["img"]⟩ "img" none
      = Except.ok (⟨["img"], ["img"]⟩, [BuildOp.pull "img"]) ∧
    build_image ⟨["img"], ["img"]⟩ "img" none = Except.ok (⟨["img"], ["img"]⟩, []) ∧
    build_image ⟨[], []⟩ "img" none
      = Except.error (SandboxErr.imageNotFoundInRegistry "img") := by
  refine ⟨?_, ?_, ?_⟩
  · exact (build_image_idempotent ⟨[], ["img"]⟩ "img" none none).2.2.2
      (by decide) rfl (by decide)
  · exact (build_image_idempotent ⟨["img"], ["img"]⟩ "img" none none).1 (by decide)
  · exact (build_image_idempotent ⟨[], []⟩ "img" none none).2.2.1
      (by decide) rfl (by decide)

/-- C4: with an existing project id and `force = false`,
`create_project` fails AlreadyExists and returns the filesystem
untouched; with `force = true` and a valid script it succeeds and the
project directory holds exactly the freshly materialized project
(placeholder gone, the script as `main.py`, manifest and exported
requirements only when a non-empty requirement list was resolved),
independent of the prior directory's contents. -/
theorem create_project_force_semantics (stdlib : List String)
    (registry : Registry) (localPkgs : LocalIndex) (fs : RuntimeFs)
    (script : String) (id : String) (rs : List String)
    (prior : ProjectDir) (content : List Stmt) :
    (fs.projects id = some prior →
      create_project stdlib registry localPkgs fs script (some id)
        (ReqArg.explicitReqs rs) [] false
        = (Except.error (CreateErr.alreadyExists id), fs)) ∧
    (fs.projects id = some prior → fs.scripts script = some content →
      (create_project stdlib registry localPkgs fs script (some id)
        (ReqArg.explicitReqs rs) [] true).1 = Except.ok () ∧
      ((create_project stdlib registry localPkgs fs script (some id)
        (ReqArg.explicitReqs rs) [] true).2).projects id
        = some (freshProject content (some rs))) := by
  constructor
  · intro h
    simp [create_project, project_exists, h]
  · intro h hscript
    have hfresh : freshProject content (some rs)
        = (if rs ≠ [] then
            { hasPlaceholder := false, mainPy := some content,
              manifest := some rs, requirementsTxt := some rs, extraFiles := [] }
          else
            { hasPlaceholder := false, mainPy := some content,
              manifest := none, requirementsTxt := none, extraFiles := [] }) := by
      by_cases hrs : rs = [] <;> simp [freshProject, hrs]
    constructor
    · simp [create_project, project_exists, h, hscript]
    · simp [create_project, project_exists, h, hscript, uvInitSkeleton, hfresh]

/-- C4 witness: replacing an existing project with force. -/
theorem create_project_force_semantics_witness :
    create_project [] (fun _ => none) (fun _ => [])
      ⟨fun p => if p = "s.py" then some [Stmt.imp ["os"]] else none,
       fun j => if j = "proj" then some ⟨true, none, none, none, ["junk"]⟩ else none⟩
      "s.py" (some "proj") (ReqArg.explicitReqs ["requests==2.0.0"]) [] false
      = (Except.error (CreateErr.alreadyExists "proj"),
         ⟨fun p => if p = "s.py" then some [Stmt.imp ["os"]] else none,
          fun j => if j = "proj" then some ⟨true, none, none, none, ["junk"]⟩ else none⟩) ∧
    ((create_project [] (fun _ => none) (fun _ => [])
      ⟨fun p => if p = "s.py" then some [Stmt.imp ["os"]] else none,
       fun j => if j = "proj" then some ⟨true, none, none, none, ["junk"]⟩ else none⟩
      "s.py" (some "proj") (ReqArg.explicitReqs ["requests==2.0.0"]) [] true).2).projects "proj"
      = some (freshProject [Stmt.imp ["os"]] (some ["requests==2.0.0"])) := by
  constructor
  · exact (create_project_force_semantics [] (fun _ => none) (fun _ => [])
      ⟨fun p => if p = "s.py" then some [Stmt.imp ["os"]] else none,
       fun j => if j = "proj" then some ⟨true, none, none, none, ["junk"]⟩ else none⟩
      "s.py" "proj" ["requests==2.0.0"] ⟨true, none, none, none, ["junk"]⟩
      [Stmt.imp ["os"]]).1 (by simp)
  · exact ((create_project_force_semantics [] (fun _ => none) (fun _ => [])
      ⟨fun p => if p = "s.py" then some [Stmt.imp ["os"]] else none,
       fun j => if j = "proj" then some ⟨true, none, none, none, ["junk"]⟩ else none⟩
      "s.py" "proj" ["requests==2.0.0"] ⟨true, none, none, none, ["junk"]⟩
      [Stmt.imp ["os"]]).2 (by simp) (by simp)).2

/-- C10: with `force = true` and an existing project id, the prior
project directory is removed before the script path is validated: when
the script does not exist the call fails NotFound and the returned
filesystem holds neither the old nor a new project under that id. -/
theorem create_project_force_missing_script (stdlib : List String)
    (registry : Registry) (localPkgs : LocalIndex) (fs : RuntimeFs)
    (script : String) (id : String) (reqArg : ReqArg)
    (ovs : List (String × Dependency)) (prior : ProjectDir)
    (hexists : fs.projects id = some prior)
    (hscript : fs.scripts script = none) :
    (create_project stdlib registry localPkgs fs script (some id) reqArg ovs true).1
      = Except.error (CreateErr.scriptNotFound script) ∧
    ((create_project stdlib registry localPkgs fs script (some id) reqArg ovs true).2).projects id
      = none := by
  constructor
  · simp [create_project, project_exists, hexists, hscript]
  · simp [create_project, project_exists, hexists, hscript]

/-- C10 witness: a missing script under force deletes the old project
and creates nothing. -/
theorem create_project_force_missing_script_witness :
    (create_project [] (fun _ => none) (fun _ => [])
      ⟨fun _ => none, fun j => if j = "proj" then some ⟨true, none, none, none, []⟩ else none⟩
      "ghost.py" (some "proj") ReqArg.noReqs [] true).1
      = Except.error (CreateErr.scriptNotFound "ghost.py") ∧
    ((create_project [] (fun _ => none) (fun _ => [])
      ⟨fun _ => none, fun j => if j = "proj" then some ⟨true, none, none, none, []⟩ else none⟩
      "ghost.py" (some "proj") ReqArg.noReqs [] true).2).projects "proj" = none :=
  create_project_force_missing_script [] (fun _ => none) (fun _ => [])
    ⟨fun _ => none, fun j => if j = "proj" then some ⟨true, none, none, none, []⟩ else none⟩
    "ghost.py" "proj" ReqArg.noReqs [] ⟨true, none, none, none, []⟩ (by simp) rfl

theorem sizeOf_pos_stmt (s : Stmt) : 0 < sizeOf s := by
  cases s <;> simp

theorem sizeOf_lt_of_childOf {s t : Stmt} (h : ChildOf s t) : sizeOf s < sizeOf t := by
  cases h with
  | iteBody hmem =>
      have h1 := List.sizeOf_lt_of_mem hmem
      simp only [Stmt.ite.sizeOf_spec]
      omega
  | iteElse hmem =>
      have h1 := List.sizeOf_lt_of_mem hmem
      simp only [Stmt.ite.sizeOf_spec]
      omega
  | tryBody hmem =>
      have h1 := List.sizeOf_lt_of_mem hmem
      simp only [Stmt.tryS.sizeOf_spec]
      omega
  | tryHandler hh hmem =>
      have h1 := List.sizeOf_lt_of_mem hmem
      have h2 := List.sizeOf_lt_of_mem hh
      simp only [Stmt.tryS.sizeOf_spec]
      omega
  | tryElse hmem =>
      have h1 := List.sizeOf_lt_of_mem hmem
      simp only [Stmt.tryS.sizeOf_spec]
      omega
  | tryFinal hmem =>
      have h1 := List.sizeOf_lt_of_mem hmem
      simp only [Stmt.tryS.sizeOf_spec]
      omega
  | otherChild hmem =>
      have h1 := List.sizeOf_lt_of_mem hmem
      simp only [Stmt.other.sizeOf_spec]
      omega

theorem stmtsModules_mem_iff_of (k : Nat)
    (ih : ∀ s : Stmt, sizeOf s ≤ k → ∀ n,
      (n ∈ stmtModules s ↔ ∃ t, Relation.ReflTransGen ChildOf t s ∧ n ∈ directModules t)) :
    ∀ (l : List Stmt), (∀ c ∈ l, sizeOf c ≤ k) → ∀ n,
      (n ∈ stmtsModules l ↔
        ∃ c ∈ l, ∃ t, Relation.ReflTransGen ChildOf t c ∧ n ∈ directModules t) := by
  intro l
  induction l with
  | nil => intro _ n; simp [stmtsModules]
  | cons c cs ihl =>
      intro hsz n
      simp only [stmtsModules, List.mem_append]
      rw [ih c (hsz c (List.mem_cons_self _ _)) n,
        ihl (fun d hd => hsz d (List.mem_cons_of_mem _ hd)) n]
      constructor
      · rintro (⟨t, ht, hn⟩ | ⟨d, hd, t, ht, hn⟩)
        · exact ⟨c, List.mem_cons_self _ _, t, ht, hn⟩
        · exact ⟨d, List.mem_cons_of_mem _ hd, t, ht, hn⟩
      · rintro ⟨d, hd, t, ht, hn⟩
        rcases List.mem_cons.mp hd with rfl | hd2
        · exact Or.inl ⟨t, ht, hn⟩
        · exact Or.inr ⟨d, hd2, t, ht, hn⟩

theorem handlersModules_mem_iff_of (k : Nat)
    (ih : ∀ s : Stmt, sizeOf s ≤ k → ∀ n,
      (n ∈ stmtModules s ↔ ∃ t, Relation.ReflTransGen ChildOf t s ∧ n ∈ directModules t)) :
    ∀ (hs : List (List Stmt)), (∀ h ∈ hs, ∀ c ∈ h, sizeOf c ≤ k) → ∀ n,
      (n ∈ handlersModules hs ↔
        ∃ h ∈ hs, ∃ c ∈ h, ∃ t, Relation.ReflTransGen ChildOf t c ∧ n ∈ directModules t) := by
  intro hs
  induction hs with
  | nil => intro _ n; simp [handlersModules]
  | cons h rest ihl =>
      intro hsz n
      simp only [handlersModules, List.mem_append]
      rw [stmtsModules_mem_iff_of k ih h (hsz h (List.mem_cons_self _ _)) n,
        ihl (fun g hg => hsz g (List.mem_cons_of_mem _ hg)) n]
      constructor
      · rintro (⟨c, hc, t, ht, hn⟩ | ⟨g, hg, c, hc, t, ht, hn⟩)
        · exact ⟨h, List.mem_cons_self _ _, c, hc, t, ht, hn⟩
        · exact ⟨g, List.mem_cons_of_mem _ hg, c, hc, t, ht, hn⟩
      · rintro ⟨g, hg, c, hc, t, ht, hn⟩
        rcases List.mem_cons.mp hg with rfl | hg2
        · exact Or.inl ⟨c, hc, t, ht, hn⟩
        · exact Or.inr ⟨g, hg2, c, hc, t, ht, hn⟩

theorem stmtModules_char_aux : ∀ (k : Nat) (s : Stmt), sizeOf s ≤ k → ∀ (n : String),
    (n ∈ stmtModules s ↔ ∃ t, Relation.ReflTransGen ChildOf t s ∧ n ∈ directModules t) := by
  intro k
  induction k with
  | zero =>
      intro s hs
      exact absurd hs (by have := sizeOf_pos_stmt s; omega)
  | succ k ih =>
      intro s hs n
      cases s with
      | imp names =>
          constructor
          · intro hn
            exact ⟨Stmt.imp names, Relation.ReflTransGen.refl, hn⟩
          · rintro ⟨t, ht, hn⟩
            rcases ht.cases_tail with heq | ⟨c, _, hchild⟩
            · rw [← heq] at hn
              exact hn
            · cases hchild
      | impFrom level mod =>
          constructor
          · intro hn
            exact ⟨Stmt.impFrom level mod, Relation.ReflTransGen.refl, hn⟩
          · rintro ⟨t, ht, hn⟩
            rcases ht.cases_tail with heq | ⟨c, _, hchild⟩
            · rw [← heq] at hn
              exact hn
            · cases hchild
      | ite body orelse =>
          have hsz : sizeOf (Stmt.ite body orelse) = 1 + sizeOf body + sizeOf orelse := by simp
          have hb : ∀ c ∈ body, sizeOf c ≤ k := fun c hc => by
            have h1 := List.sizeOf_lt_of_mem hc
            omega
          have ho : ∀ c ∈ orelse, sizeOf c ≤ k := fun c hc => by
            have h1 := List.sizeOf_lt_of_mem hc
            omega
          simp only [stmtModules, List.mem_append]
          rw [stmtsModules_mem_iff_of k ih body hb n,
            stmtsModules_mem_iff_of k ih orelse ho n]
          constructor
          · rintro (⟨c, hc, t, ht, hn⟩ | ⟨c, hc, t, ht, hn⟩)
            · exact ⟨t, ht.tail (ChildOf.iteBody hc), hn⟩
            · exact ⟨t, ht.tail (ChildOf.iteElse hc), hn⟩
          · rintro ⟨t, ht, hn⟩
            rcases ht.cases_tail with heq | ⟨c, hc, hchild⟩
            · rw [← heq] at hn
              simp [directModules] at hn
            · cases hchild with
              | iteBody hmem => exact Or.inl ⟨_, hmem, t, hc, hn⟩
              | iteElse hmem => exact Or.inr ⟨_, hmem, t, hc, hn⟩
      | tryS body handlers orelse finalbody =>
          have hsz : sizeOf (Stmt.tryS body handlers orelse finalbody)
              = 1 + sizeOf body + sizeOf handlers + sizeOf orelse + sizeOf finalbody := by simp
          have hb : ∀ c ∈ body, sizeOf c ≤ k := fun c hc => by
            have h1 := List.sizeOf_lt_of_mem hc
            omega
          have hh : ∀ h ∈ handlers, ∀ c ∈ h, sizeOf c ≤ k := fun h hmem c hc => by
            have h1 := List.sizeOf_lt_of_mem hc
            have h2 := List.sizeOf_lt_of_mem hmem
            omega
          have ho : ∀ c ∈ orelse, sizeOf c ≤ k := fun c hc => by
            have h1 := List.sizeOf_lt_of_mem hc
            omega
          have hf : ∀ c ∈ finalbody, sizeOf c ≤ k := fun c hc => by
            have h1 := List.sizeOf_lt_of_mem hc
            omega
          simp only [stmtModules, List.mem_append]
          rw [stmtsModules_mem_iff_of k ih body hb n,
            handlersModules_mem_iff_of k ih handlers hh n,
            stmtsModules_mem_iff_of k ih orelse ho n,
            stmtsModules_mem_iff_of k ih finalbody hf n]
          constructor
          · rintro (((⟨c, hc, t, ht, hn⟩ | ⟨h, hmem, c, hc, t, ht, hn⟩) |
              ⟨c, hc, t, ht, hn⟩) | ⟨c, hc, t, ht, hn⟩)
            · exact ⟨t, ht.tail (ChildOf.tryBody hc), hn⟩
            · exact ⟨t, ht.tail (ChildOf.tryHandler hmem hc), hn⟩
            · exact ⟨t, ht.tail (ChildOf.tryElse hc), hn⟩
            · exact ⟨t, ht.tail (ChildOf.tryFinal hc), hn⟩
          · rintro ⟨t, ht, hn⟩
            rcases ht.cases_tail with heq | ⟨c, hc, hchild⟩
            · rw [← heq] at hn
              simp [directModules] at hn
            · cases hchild with
              | tryBody hmem => exact Or.inl (Or.inl (Or.inl ⟨_, hmem, t, hc, hn⟩))
              | tryHandler hh2 hmem => exact Or.inl (Or.inl (Or.inr ⟨_, hh2, _, hmem, t, hc, hn⟩))
              | tryElse hmem => exact Or.inl (Or.inr ⟨_, hmem, t, hc, hn⟩)
              | tryFinal hmem => exact Or.inr ⟨_, hmem, t, hc, hn⟩
      | other children =>
          have hsz : sizeOf (Stmt.other children) = 1 + sizeOf children := by simp
          have hb : ∀ c ∈ children, sizeOf c ≤ k := fun c hc => by
            have h1 := List.sizeOf_lt_of_mem hc
            omega
          simp only [stmtModules]
          rw [stmtsModules_mem_iff_of k ih children hb n]
          constructor
          · rintro ⟨c, hc, t, ht, hn⟩
            exact ⟨t, ht.tail (ChildOf.otherChild hc), hn⟩
          · rintro ⟨t, ht, hn⟩
            rcases ht.cases_tail with heq | ⟨c, hc, hchild⟩
            · rw [← heq] at hn
              simp [directModules] at hn
            · cases hchild with
              | otherChild hmem => exact ⟨_, hmem, t, hc, hn⟩

theorem stmtsModules_char (prog : List Stmt) (n : String) :
    n ∈ stmtsModules prog ↔ ∃ s, ReachableIn s prog ∧ n ∈ directModules s := by
  rw [stmtsModules_mem_iff_of (sizeOf prog)
    (stmtModules_char_aux (sizeOf prog)) prog
    (fun c hc => le_of_lt (List.sizeOf_lt_of_mem hc)) n]
  constructor
  · rintro ⟨c, hc, t, ht, hn⟩
    exact ⟨t, ⟨c, hc, ht⟩, hn⟩
  · rintro ⟨t, ⟨c, hc, ht⟩, hn⟩
    exact ⟨c, hc, t, ht, hn⟩

/-- C2: `extract_module_names` fails NotFound on a path that is not an
existing file, and otherwise returns the duplicate-free list of module
names contributed by exactly the import statements reachable in the
tree — through both arms of every conditional, every part of a try
statement, and any other nesting — where a plain import contributes
the root of each dotted name and a from-import contributes its module
exactly when it is absolute. -/
theorem extract_module_names_spec (fs : ScriptFs) (path : String) (prog : List Stmt) :
    (fs path = none →
      extract_module_names fs (Sum.inl path) = Except.error (FsErr.scriptNotFound path)) ∧
    (fs path = some prog →
      extract_module_names fs (Sum.inl path) = Except.ok (dedupFirst (stmtsModules prog))) ∧
    extract_module_names fs (Sum.inr prog) = Except.ok (dedupFirst (stmtsModules prog)) ∧
    (dedupFirst (stmtsModules prog)).Nodup ∧
    (∀ n, n ∈ dedupFirst (stmtsModules prog) ↔
      ∃ s, ReachableIn s prog ∧ n ∈ directModules s) := by
  refine ⟨fun h => ?_, fun h => ?_, rfl, nodup_dedupFirst _, fun n => ?_⟩
  · simp [extract_module_names, h]
  · simp [extract_module_names, h]
  · rw [mem_dedupFirst]
    exact stmtsModules_char prog n

/-- C2 witness: a missing path fails NotFound; a program with imports
under `try` and in both arms of a conditional yields every reachable
module name, the dotted import contributing only its root and the
relative from-import contributing nothing. -/
theorem extract_module_names_spec_witness :
    extract_module_names (fun _ => none) (Sum.inl "x.py")
      = Except.error (FsErr.scriptNotFound "x.py") ∧
    extract_module_names (fun _ => none)
      (Sum.inr [Stmt.imp ["sys"],
        Stmt.tryS [Stmt.imp ["numpy"]] [[Stmt.other []]] [] [],
        Stmt.ite [Stmt.imp ["pandas.core"]]
          [Stmt.impFrom 0 (some "csv"), Stmt.impFrom 1 (some "rel")]])
      = Except.ok ["sys", "numpy", "pandas", "csv"] ∧
    (∃ s, ReachableIn s
        [Stmt.imp ["sys"],
         Stmt.tryS [Stmt.imp ["numpy"]] [[Stmt.other []]] [] [],
         Stmt.ite [Stmt.imp ["pandas.core"]]
           [Stmt.impFrom 0 (some "csv"), Stmt.impFrom 1 (some "rel")]] ∧
      "csv" ∈ directModules s) := by
  refine ⟨?_, ?_, ?_⟩
  · exact (extract_module_names_spec (fun _ => none) "x.py" []).1 rfl
  · exact ((extract_module_names_spec (fun _ => none) "x.py"
      [Stmt.imp ["sys"],
       Stmt.tryS [Stmt.imp ["numpy"]] [[Stmt.other []]] [] [],
       Stmt.ite [Stmt.imp ["pandas.core"]]
         [Stmt.impFrom 0 (some "csv"), Stmt.impFrom 1 (some "rel")]]).2.2.1).trans (by decide)
  · exact ((extract_module_names_spec (fun _ => none) "x.py"
      [Stmt.imp ["sys"],
       Stmt.tryS [Stmt.imp ["numpy"]] [[Stmt.other []]] [] [],
       Stmt.ite [Stmt.imp ["pandas.core"]]
         [Stmt.impFrom 0 (some "csv"), Stmt.impFrom 1 (some "rel")]]).2.2.2.2 "csv").mp
      (by decide)

end Orchestr8
